import Mathlib

/-
Verification of the spacebot LLM routing core (src/llm/model.rs, src/auth.rs).

The Rust source is shallowly embedded: serde_json::Value becomes `Json`
(with integer numerics, which is all the routed fields use), strings become
`String` / `List Char`, HTTP calls become oracle functions that map a call
index to the provider's answer, and fallible code returns `Except`/`Option`.
Constants and helpers that live in src/llm/routing.rs (not part of this
source tree) are modelled from the specification and marked as such.
-/

set_option autoImplicit false

namespace Spacebot

/-- Model of serde_json::Value with integer numerics (the routed fields —
token counts, ids, messages — are integers and strings). -/
inductive Json where
  | null
  | bool (b : Bool)
  | num (n : Int)
  | str (s : String)
  | arr (elems : List Json)
  | obj (fields : List (String × Json))

/-- Field access returning an option, mirroring serde_json's `Value::get`. -/
def Json.get? : Json → String → Option Json
  | .obj fs, k => fs.lookup k
  | _, _ => none

/-- Field access mirroring serde_json's `Value::index`, which yields `Null`
for a missing key or a non-object receiver. -/
def Json.getF (j : Json) (k : String) : Json :=
  (j.get? k).getD .null

/-- Array index access mirroring `value[i]`, yielding `Null` when out of
range or not an array. -/
def Json.idx (j : Json) (n : Nat) : Json :=
  match j with
  | .arr xs => (xs.get? n).getD .null
  | _ => .null

/-- Mirrors `Value::as_str`. -/
def Json.asStr : Json → Option String
  | .str s => some s
  | _ => none

/-- Mirrors `Value::as_array`. -/
def Json.asArr : Json → Option (List Json)
  | .arr xs => some xs
  | _ => none

/-- Mirrors `Value::as_u64` on integer numerics. -/
def Json.asNat : Json → Option Nat
  | .num n => if 0 ≤ n then some n.toNat else none
  | _ => none

/-- Mirrors `Value::as_i64` on integer numerics. -/
def Json.asInt : Json → Option Int
  | .num n => some n
  | _ => none

mutual

/-- Structural equality on `Json`, mirroring `serde_json::Value`'s `Eq`. -/
def Json.beq : Json → Json → Bool
  | .null, .null => true
  | .bool a, .bool b => a == b
  | .num a, .num b => a == b
  | .str a, .str b => a == b
  | .arr a, .arr b => Json.beqArr a b
  | .obj a, .obj b => Json.beqObj a b
  | _, _ => false

/-- Elementwise `Json.beq` on arrays. -/
def Json.beqArr : List Json → List Json → Bool
  | [], [] => true
  | x :: xs, y :: ys => Json.beq x y && Json.beqArr xs ys
  | _, _ => false

/-- Elementwise `Json.beq` on object field lists. -/
def Json.beqObj : List (String × Json) → List (String × Json) → Bool
  | [], [] => true
  | (k, x) :: xs, (l, y) :: ys => k == l && Json.beq x y && Json.beqObj xs ys
  | _, _ => false

end

/-- ASCII lowercasing of one character, mirroring
`char::to_ascii_lowercase`. -/
def lowerAscii (c : Char) : Char :=
  if 'A' ≤ c ∧ c ≤ 'Z' then Char.ofNat (c.toNat + 32) else c

/-- ASCII lowercasing of a string, mirroring `str::to_ascii_lowercase`. -/
def toLowerStr (s : String) : String :=
  ⟨s.data.map lowerAscii⟩

/-- Substring test on character lists, mirroring `str::contains` with a
literal pattern. -/
def containsSub : List Char → List Char → Bool
  | _, [] => true
  | [], _ :: _ => false
  | x :: xs, needle => needle.isPrefixOf (x :: xs) || containsSub xs needle

/-- Substring test on strings. -/
def containsStr (hay needle : String) : Bool :=
  containsSub hay.data needle.data

/-- Mirrors `str::starts_with` with a literal pattern. -/
def startsWithStr (p s : String) : Bool :=
  p.data.isPrefixOf s.data

-- ------------------------------------------------------------------
-- Model identifier parsing (SpacebotModel::make, model.rs lines 207-231)
-- ------------------------------------------------------------------

/-- The characters of the literal "openrouter/" checked by `strip_prefix`. -/
def openrouterPre : List Char := "openrouter/".data

/-- Mirrors `str::split_once('/')`: splits at the first slash. -/
def splitSlash : List Char → Option (List Char × List Char)
  | [] => none
  | c :: cs =>
    if c = '/' then some ([], cs)
    else (splitSlash cs).map fun pm => (c :: pm.1, pm.2)

/-- Core of SpacebotModel::make on character lists: strip the literal
"openrouter/", else split at the first slash, else default the provider to
"anthropic". -/
def makeCore (l : List Char) : List Char × List Char :=
  if openrouterPre.isPrefixOf l then ("openrouter".data, l.drop 11)
  else
    match splitSlash l with
    | some pm => (pm.1, pm.2)
    | none => ("anthropic".data, l)

/-- SpacebotModel::make's (provider, model_name) resolution. -/
def makeProviderModel (s : String) : String × String :=
  (⟨(makeCore s.data).1⟩, ⟨(makeCore s.data).2⟩)

-- ------------------------------------------------------------------
-- Response body truncation (truncate_body, model.rs lines 1594-1602)
-- ------------------------------------------------------------------

/-- UTF-8 byte length of a character list, mirroring `str::len`. -/
def byteLen (l : List Char) : Nat :=
  (l.map Char.utf8Size).sum

/-- Mirrors the byte slice `&body[..n]`: `none` models the Rust panic that
occurs when `n` is not a character boundary (or exceeds the length). -/
def takeBytes : Nat → List Char → Option (List Char)
  | n, [] => if n = 0 then some [] else none
  | n, c :: cs =>
    if n = 0 then some []
    else if c.utf8Size ≤ n then (takeBytes (n - c.utf8Size) cs).map (c :: ·)
    else none

/-- truncate_body: bodies of at most 500 bytes pass through; longer bodies
are sliced to their first 500 bytes with `&body[..500]`, which panics
(`none`) when byte 500 is not a character boundary. -/
def truncateBody (body : List Char) : Option (List Char) :=
  if byteLen body ≤ 500 then some body
  else takeBytes 500 body

-- ------------------------------------------------------------------
-- Neutral response schema (rig CompletionResponse, as used by model.rs)
-- ------------------------------------------------------------------

/-- One assistant content part of the neutral response schema. -/
inductive AssistantPart where
  | text (t : String)
  | reasoning (parts : List String)
  | toolCall (id : String) (name : String) (args : Json)

/-- Token usage counts (rig completion::Usage). -/
structure Usage where
  input_tokens : Nat
  output_tokens : Nat
  total_tokens : Nat
  cached_input_tokens : Nat

/-- Neutral completion response: assistant parts, usage, raw payload. -/
structure CompletionResponse where
  choice : List AssistantPart
  usage : Usage
  raw : Json

/-- make_tool_call (model.rs lines 1606-1617): trims the function name. -/
def makeToolCall (id name : String) (args : Json) : AssistantPart :=
  .toolCall id name.trim args

-- ------------------------------------------------------------------
-- parse_anthropic_response (model.rs lines 1619-1689)
-- ------------------------------------------------------------------

/-- One Anthropic content block: text and tool_use blocks become parts,
thinking and unknown blocks are skipped. -/
def anthropicBlockPart (block : Json) : Option AssistantPart :=
  match (block.getF "type").asStr with
  | some "text" => some (.text (((block.getF "text").asStr).getD ""))
  | some "tool_use" =>
      some (makeToolCall (((block.getF "id").asStr).getD "")
        (((block.getF "name").asStr).getD "") (block.getF "input"))
  | _ => none

/-- parse_anthropic_response: on a missing content array fail; an empty
part list is replaced by a single empty text part; usage totals are the
sum of input and output tokens. -/
def parseAnthropicResponse (body : Json) : Except String CompletionResponse :=
  match (body.getF "content").asArr with
  | none => .error "missing content array"
  | some blocks =>
      let parts := blocks.filterMap anthropicBlockPart
      let choice := if parts.isEmpty then [AssistantPart.text ""] else parts
      let u := body.getF "usage"
      let i := ((u.getF "input_tokens").asNat).getD 0
      let o := ((u.getF "output_tokens").asNat).getD 0
      let cached := ((u.getF "cache_read_input_tokens").asNat).getD 0
      .ok ⟨choice, ⟨i, o, i + o, cached⟩, body⟩

-- ------------------------------------------------------------------
-- parse_openai_response (model.rs lines 1773-1864)
-- ------------------------------------------------------------------

/-- Decoding of one tool call's `arguments` field: a JSON string is parsed
(`fromStr` models serde_json::from_str), a raw object is kept as is, and
anything else collapses to the empty object. -/
def openAiArgs (fromStr : String → Option Json) (af : Json) : Json :=
  match af.asStr.bind fromStr with
  | some v => v
  | none =>
      match af with
      | .obj fs => .obj fs
      | _ => .obj []

/-- The assistant parts collected by parse_openai_response from
`choices[0].message`, in push order: content, reasoning_content promoted
to content when content is empty, reasoning part, tool calls. -/
def openAiAssistantParts (fromStr : String → Option Json) (msg : Json) : List AssistantPart :=
  let contentParts : List AssistantPart :=
    match (msg.getF "content").asStr with
    | some t => if t = "" then [] else [.text t]
    | none => []
  let contentParts :=
    if contentParts.isEmpty then
      match (msg.getF "reasoning_content").asStr with
      | some r => if r = "" then [] else [.text r]
      | none => []
    else contentParts
  let reasoningParts : List AssistantPart :=
    match msg.getF "reasoning_content" with
    | .str rc => if rc = "" then [] else [.reasoning [rc]]
    | .arr items =>
        let rs := items.filterMap Json.asStr
        if rs.isEmpty then [] else [.reasoning rs]
    | _ => []
  let toolCallParts : List AssistantPart :=
    match (msg.getF "tool_calls").asArr with
    | some tcs =>
        tcs.map fun tc =>
          makeToolCall (((tc.getF "id").asStr).getD "")
            ((((tc.getF "function").getF "name").asStr).getD "")
            (openAiArgs fromStr ((tc.getF "function").getF "arguments"))
    | none => []
  contentParts ++ reasoningParts ++ toolCallParts

/-- parse_openai_response: an empty part list is an error (`empty response
from <label>`), otherwise usage totals are input plus output tokens. -/
def parseOpenAiResponse (fromStr : String → Option Json) (body : Json)
    (label : String) : Except String CompletionResponse :=
  let msg := ((body.getF "choices").idx 0).getF "message"
  let parts := openAiAssistantParts fromStr msg
  if parts.isEmpty then .error ("empty response from " ++ label)
  else
    let u := body.getF "usage"
    let i := ((u.getF "prompt_tokens").asNat).getD 0
    let o := ((u.getF "completion_tokens").asNat).getD 0
    let cached := (((u.getF "prompt_tokens_details").getF "cached_tokens").asNat).getD 0
    .ok ⟨parts, ⟨i, o, i + o, cached⟩, body⟩

-- ------------------------------------------------------------------
-- parse_openai_responses_response (model.rs lines 1866-1931)
-- ------------------------------------------------------------------

/-- Parts contributed by one item of the Responses API `output[]` array. -/
def responsesItemParts (fromStr : String → Option Json) (item : Json) : List AssistantPart :=
  match (item.getF "type").asStr with
  | some "message" =>
      match (item.getF "content").asArr with
      | some cs =>
          cs.filterMap fun c =>
            if (c.getF "type").asStr = some "output_text" then
              match (c.getF "text").asStr with
              | some t => if t = "" then none else some (.text t)
              | none => none
            else none
      | none => []
  | some "function_call" =>
      let callId := (((item.getF "call_id").asStr).orElse
        fun _ => (item.getF "id").asStr).getD ""
      let name := ((item.getF "name").asStr).getD ""
      let args := ((item.getF "arguments").asStr.bind fromStr).getD (.obj [])
      [makeToolCall callId name args]
  | _ => []

/-- parse_openai_responses_response: a missing output array and an empty
part list are both errors; usage totals are input plus output tokens. -/
def parseOpenAiResponsesResponse (fromStr : String → Option Json)
    (body : Json) : Except String CompletionResponse :=
  match (body.getF "output").asArr with
  | none => .error "missing output array"
  | some items =>
      let parts := items.foldr (fun it acc => responsesItemParts fromStr it ++ acc) []
      if parts.isEmpty then .error "empty response from OpenAI Responses API"
      else
        let u := body.getF "usage"
        let i := ((u.getF "input_tokens").asNat).getD 0
        let o := ((u.getF "output_tokens").asNat).getD 0
        let cached := (((u.getF "input_tokens_details").getF "cached_tokens").asNat).getD 0
        .ok ⟨parts, ⟨i, o, i + o, cached⟩, body⟩

-- ------------------------------------------------------------------
-- parse_antigravity_response (model.rs lines 1691-1771)
-- ------------------------------------------------------------------

/-- Aggregation state of the Antigravity SSE event fold: text segments
(with adjacent-duplicate suppression), deduplicated function calls, and
the usage counters of the last event bearing them. -/
structure AgAgg where
  segs : List String
  calls : List (String × Json)
  inTok : Nat
  outTok : Nat

/-- Fold of one part of one candidate of one event into the aggregate. -/
def agFoldPart (acc : AgAgg) (part : Json) : AgAgg :=
  let acc :=
    match (part.getF "text").asStr with
    | some t =>
        if t != "" && acc.segs.getLast? != some t then { acc with segs := acc.segs ++ [t] }
        else acc
    | none => acc
  match part.getF "functionCall" with
  | .obj fc =>
      let name := (((Json.obj fc).getF "name").asStr).getD ""
      let args := ((Json.obj fc).get? "args").getD (.obj [])
      if acc.calls.any (fun pr => pr.1 == name && Json.beq pr.2 args) then acc
      else { acc with calls := acc.calls ++ [(name, args)] }
  | _ => acc

/-- Fold of one SSE event: the payload sits under `response` when that key
is present; texts and function calls come from candidate parts; usage
counters keep their previous value when the event lacks them. -/
def agFoldEvent (acc : AgAgg) (event : Json) : AgAgg :=
  let response := ((event.get? "response").getD event)
  let acc :=
    match (response.getF "candidates").asArr with
    | some cands =>
        cands.foldl (fun (acc : AgAgg) (cand : Json) =>
          match ((cand.getF "content").getF "parts").asArr with
          | some parts => parts.foldl agFoldPart acc
          | none => acc) acc
    | none => acc
  { acc with
    inTok := ((((response.getF "usageMetadata").getF "promptTokenCount").asNat)).getD acc.inTok,
    outTok := ((((response.getF "usageMetadata").getF "candidatesTokenCount").asNat)).getD acc.outTok }

/-- The aggregate over a whole event stream. -/
def antigravityAggregate (events : List Json) : AgAgg :=
  events.foldl agFoldEvent ⟨[], [], 0, 0⟩

/-- Parts emitted by parse_antigravity_response: one joined text part when
any segment exists, then the tool calls (the random uuid of each call id
is modelled by the call's index). -/
def antigravityParts (events : List Json) : List AssistantPart :=
  let acc := antigravityAggregate events
  (if acc.segs.isEmpty then [] else [AssistantPart.text (String.join acc.segs)]) ++
    acc.calls.enum.map fun kc => makeToolCall ("call_" ++ toString kc.1) kc.2.1 kc.2.2

/-- parse_antigravity_response: an empty part list is an error; usage
totals are input plus output tokens, cached input is zero. -/
def parseAntigravityResponse (events : List Json) : Except String CompletionResponse :=
  let acc := antigravityAggregate events
  let parts := antigravityParts events
  if parts.isEmpty then .error "empty response from Antigravity"
  else
    .ok ⟨parts, ⟨acc.inTok, acc.outTok, acc.inTok + acc.outTok, 0⟩,
      .obj [("events", .arr events)]⟩

-- ------------------------------------------------------------------
-- AntigravityCredentials::refresh (auth.rs lines 136-202)
-- ------------------------------------------------------------------

/-- Stored Antigravity OAuth credentials (auth.rs lines 117-126). -/
structure AntigravityCredentials where
  access_token : String
  refresh_token : Option String
  expires_at : Int
  token_type : Option String
  scope : Option String
  project_id : String

/-- The pure tail of AntigravityCredentials::refresh, applied to the
parsed refresh-response JSON (the HTTP round-trip and status check sit in
the environment): a missing access_token fails; refresh_token, token_type
and scope fall back to the stored values; project_id is copied. -/
def antigravityRefreshApply (old : AntigravityCredentials) (now : Int)
    (json : Json) : Except String AntigravityCredentials :=
  match (json.getF "access_token").asStr with
  | none => .error "antigravity refresh response missing access_token"
  | some accessToken =>
      let expiresIn := ((json.getF "expires_in").asInt).getD 3600
      let refreshToken := ((json.getF "refresh_token").asStr).orElse
        fun _ => old.refresh_token
      let tokenType := ((json.getF "token_type").asStr).orElse
        fun _ => old.token_type
      let scopeVal := ((json.getF "scope").asStr).orElse fun _ => old.scope
      .ok ⟨accessToken, refreshToken, now + expiresIn * 1000, tokenType,
        scopeVal, old.project_id⟩

/-- Concrete Anthropic success body. -/
def anthOkBody : Json :=
  .obj [("content", .arr [.obj [("type", .str "text"), ("text", .str "ok")]]),
    ("usage", .obj [("input_tokens", .num 3), ("output_tokens", .num 1)])]

/-- Concrete OpenAI success body. -/
def oaOkBody : Json :=
  .obj [("choices", .arr [.obj [("message", .obj [("content", .str "hi")])]]),
    ("usage", .obj [("prompt_tokens", .num 2), ("completion_tokens", .num 5)])]

/-- Concrete OpenAI Responses success body. -/
def respOkBody : Json :=
  .obj [("output", .arr [.obj [("type", .str "message"),
      ("content", .arr [.obj [("type", .str "output_text"), ("text", .str "yo")]])]]),
    ("usage", .obj [("input_tokens", .num 1), ("output_tokens", .num 1)])]

/-- Concrete Antigravity success event stream. -/
def agOkEvents : List Json :=
  [.obj [("candidates", .arr [.obj [("content",
        .obj [("parts", .arr [.obj [("text", .str "hey")]])])]]),
    ("usageMetadata", .obj [("promptTokenCount", .num 4),
      ("candidatesTokenCount", .num 2)])]]

-- ------------------------------------------------------------------
-- Antigravity candidate models, endpoints and call loop
-- (model.rs lines 873-997, 1254-1349)
-- ------------------------------------------------------------------

/-- The dedup-append closure `add_model` of antigravity_model_candidates. -/
def addModel (l : List String) (m : String) : List String :=
  if l.any (fun existing => existing == m) then l else l ++ [m]

/-- antigravity_model_alias (model.rs lines 1320-1332). -/
def antigravityModelAlias (modelName : String) : Option String :=
  match modelName with
  | "claude-opus-4-5" => some "claude-opus-4-6-thinking"
  | "claude-opus-4-5-thinking" => some "claude-opus-4-6-thinking"
  | "claude-opus-4-6" => some "claude-opus-4-6-thinking"
  | "claude-sonnet-4-5" => some "claude-sonnet-4-6"
  | "claude-sonnet-4-5-thinking" => some "claude-sonnet-4-6"
  | "claude-sonnet-4-6-thinking" => some "claude-sonnet-4-6"
  | "gemini-3-pro" => some "gemini-3-pro-high"
  | "gemini-3.1-pro" => some "gemini-3.1-pro-high"
  | _ => none

/-- antigravity_model_candidates (model.rs lines 1259-1318): the ordered
candidate list derived from the requested model name. -/
def antigravityModelCandidates (requested : String) : List String :=
  let preferAliasFirst :=
    requested == "claude-opus-4-5" || requested == "claude-opus-4-5-thinking" ||
    requested == "claude-sonnet-4-5" || requested == "claude-sonnet-4-5-thinking"
  let l : List String :=
    if preferAliasFirst then
      let l :=
        match antigravityModelAlias requested with
        | some a => addModel [] a
        | none => []
      addModel l requested
    else
      let l := addModel [] requested
      match antigravityModelAlias requested with
      | some a => addModel l a
      | none => l
  let l :=
    if startsWithStr "claude-sonnet-4-" requested || requested == "claude-sonnet-4-6-thinking" then
      addModel (addModel (addModel l "claude-sonnet-4-6") "claude-sonnet-4-5-thinking")
        "claude-sonnet-4-5"
    else l
  let l :=
    if startsWithStr "claude-opus-4-" requested then
      addModel (addModel l "claude-opus-4-6-thinking") "claude-opus-4-5-thinking"
    else l
  let l :=
    if startsWithStr "gemini-3-pro" requested || startsWithStr "gemini-3.1-pro" requested then
      addModel (addModel (addModel (addModel l "gemini-3.1-pro-high") "gemini-3.1-pro-low")
        "gemini-3-pro-high") "gemini-3-pro-low"
    else l
  if requested == "gemini-3-pro" || requested == "gemini-3.1-pro" then
    addModel (addModel l "gemini-3.1-pro-high") "gemini-3-pro-high"
  else l

/-- Mirrors `str::trim_end_matches('/')`. -/
def trimTrailingSlashes (s : String) : String :=
  ⟨(s.data.reverse.dropWhile (fun c => c = '/')).reverse⟩

/-- The ordered Antigravity endpoint list (model.rs lines 899-907): the
sandbox endpoint, then the configured base URL when distinct and
non-empty, then the default endpoint when not already present. -/
def antigravityEndpoints (configuredBaseUrl : String) : List String :=
  let endpoints := ["https://daily-cloudcode-pa.sandbox.googleapis.com"]
  let configured := trimTrailingSlashes configuredBaseUrl
  let endpoints :=
    if configured != "" && !endpoints.contains configured then endpoints ++ [configured]
    else endpoints
  let defaultEndpoint := "https://cloudcode-pa.googleapis.com"
  if endpoints.contains defaultEndpoint then endpoints else endpoints ++ [defaultEndpoint]

/-- The `looks_like_missing_or_mismatch` phrase test of
should_try_next_antigravity_model, over the ASCII-lowercased message. -/
def looksLikeMissingModelMessage (message : String) : Bool :=
  let messageLower := toLowerStr message
  containsStr messageLower "not found" || containsStr messageLower "requested entity" ||
    containsStr messageLower "unknown" || containsStr messageLower "unsupported" ||
    containsStr messageLower "unavailable" || containsStr messageLower "no longer available"

/-- should_try_next_antigravity_model (model.rs lines 1334-1349): 404, or
400 with a missing-model phrase, or 403 with a missing-model phrase whose
message also mentions "model". -/
def shouldTryNextAntigravityModel (status : Nat) (message : String) : Bool :=
  let mentionsModel := containsStr (toLowerStr message) "model"
  status == 404 || (status == 400 && looksLikeMissingModelMessage message) ||
    (status == 403 && mentionsModel && looksLikeMissingModelMessage message)

/-- What the Antigravity loop does with one non-2xx response. -/
inductive AgStep where
  | nextEndpoint
  | nextModel
  | fail
deriving DecidableEq

/-- The decision applied to a non-2xx response inside call_antigravity
(model.rs lines 970-980): a 404 advances to the next endpoint, a
should_try_next hit advances to the next model, anything else returns the
error immediately. -/
def antigravityStepDecision (status : Nat) (message : String) : AgStep :=
  if status == 404 then .nextEndpoint
  else if shouldTryNextAntigravityModel status message then .nextModel
  else .fail

/-- One HTTP answer of the Antigravity environment: either a non-2xx
status with its extracted error message, or a 2xx with its parsed SSE
events (body-to-message extraction and SSE splitting belong to the
modelled environment). -/
inductive AgResult where
  | http (status : Nat) (message : String)
  | events (evs : List Json)

/-- Outcome of the endpoint loop for one candidate model: either the
whole call returns, or control advances to the next model. -/
inductive AgInner where
  | ret (r : Except String CompletionResponse)
  | nextModel (lastErr : Option String)

/-- The inner endpoint loop of call_antigravity for one candidate model,
threading the HTTP step counter and the (endpoint, model) call log. -/
def agEndpointLoop (oracle : Nat → AgResult) (model : String) :
    List String → Nat → List (String × String) → Option String →
    AgInner × Nat × List (String × String)
  | [], step, tr, lastErr => (.nextModel lastErr, step, tr)
  | ep :: rest, step, tr, _lastErr =>
    let tr' := tr ++ [(ep, model)]
    match oracle step with
    | .events evs =>
        if evs.isEmpty then (.ret (.error "empty SSE response from Antigravity"), step + 1, tr')
        else (.ret (parseAntigravityResponse evs), step + 1, tr')
    | .http status msg =>
        let err := "Antigravity API error (" ++ toString status ++ ") from " ++ ep
          ++ " using model " ++ model ++ ": " ++ msg
        match antigravityStepDecision status msg with
        | .nextEndpoint => agEndpointLoop oracle model rest (step + 1) tr' (some err)
        | .nextModel => (.nextModel (some err), step + 1, tr')
        | .fail => (.ret (.error err), step + 1, tr')

/-- The outer candidate-model loop of call_antigravity. -/
def agModelLoop (oracle : Nat → AgResult) (endpoints : List String) :
    List String → Nat → List (String × String) → Option String →
    Except String CompletionResponse × Nat × List (String × String)
  | [], step, tr, lastErr =>
      (.error (lastErr.getD "Antigravity API request failed"), step, tr)
  | m :: rest, step, tr, lastErr =>
      match agEndpointLoop oracle m endpoints step tr lastErr with
      | (.ret r, step', tr') => (r, step', tr')
      | (.nextModel lastErr', step', tr') =>
          agModelLoop oracle endpoints rest step' tr' lastErr'

/-- call_antigravity's model-and-endpoint fan-out over the HTTP oracle,
returning the result, the next HTTP step and the (endpoint, model) log. -/
def callAntigravity (oracle : Nat → AgResult) (candidates endpoints : List String)
    (step : Nat) : Except String CompletionResponse × Nat × List (String × String) :=
  agModelLoop oracle endpoints candidates step [] none

-- ------------------------------------------------------------------
-- Retry/fallback engine (SpacebotModel::attempt_with_retries and
-- SpacebotModel::completion, model.rs lines 148-199 and 240-329)
-- ------------------------------------------------------------------

/-- Modelled from the spec: is_rate_limit_error lives in
src/llm/routing.rs, which is not part of this source tree. Spec §4.5:
a message is a rate limit iff it (case-insensitively) contains "rate",
"429" or "rate_limit". -/
def isRateLimitError (msg : String) : Bool :=
  let m := toLowerStr msg
  containsStr m "rate" || containsStr m "429" || containsStr m "rate_limit"

/-- Occurrence of a '5' followed by two digits, the spec's `5\d\d`
pattern. -/
def containsFiveXX : List Char → Bool
  | c :: a :: b :: rest =>
      (c == '5' && a.isDigit && b.isDigit) || containsFiveXX (a :: b :: rest)
  | _ => false

/-- Modelled from the spec: is_retriable_error lives in
src/llm/routing.rs, which is not part of this source tree. Spec §4.5:
retriable iff rate-limited or the message (case-insensitively) contains
timeout, a 5xx code, overloaded, connection, temporarily, internal, or
unavailable. -/
def isRetriableError (msg : String) : Bool :=
  let m := toLowerStr msg
  isRateLimitError msg || containsStr m "timeout" || containsFiveXX m.data ||
    containsStr m "overloaded" || containsStr m "connection" ||
    containsStr m "temporarily" || containsStr m "internal" ||
    containsStr m "unavailable"

/-- Ghost record of one attempt_with_retries call: the model, how many
provider invocations its retry loop made, and its outcome (`none` for
success, `some e` for the error it returned). -/
structure AttemptRec where
  model : String
  calls : Nat
  outcome : Option String
deriving DecidableEq

/-- Result of attempt_with_retries over provider state σ and success
type α. -/
inductive RetryOut (α σ : Type) where
  | success (a : α) (s : σ) (calls : Nat)
  | failure (e : String) (wasRateLimit : Bool) (s : σ) (calls : Nat)

/-- Number of provider invocations an attempt_with_retries call made. -/
def RetryOut.callsOf {α σ : Type} : RetryOut α σ → Nat
  | .success _ _ c => c
  | .failure _ _ _ c => c

/-- The retry loop of attempt_with_retries: each attempt invokes the
provider once (`invoke` is one attempt_completion round-trip over
environment state σ); a non-retriable error returns immediately with
`wasRateLimit = false`; exhaustion wraps the last error as
"<model> failed after <n> attempts: <e>" and classifies it. The retry
budget `total` models the spec's MAX_RETRIES_PER_MODEL, whose value lives
in src/llm/routing.rs. Backoff sleeps are real-time effects outside the
embedding. -/
def retryGo {α σ : Type} (invoke : σ → Except String α × σ) (model : String)
    (total : Nat) : Nat → Option String → σ → Nat → RetryOut α σ
  | 0, lastErr, s, calls =>
      let le := lastErr.getD ""
      .failure (model ++ " failed after " ++ toString total ++ " attempts: " ++ le)
        (isRateLimitError le) s calls
  | remaining + 1, _lastErr, s, calls =>
      match invoke s with
      | (.ok a, s') => .success a s' (calls + 1)
      | (.error e, s') =>
          bif isRetriableError e then retryGo invoke model total remaining (some e) s' (calls + 1)
          else .failure e false s' (calls + 1)

/-- attempt_with_retries (model.rs lines 148-199). -/
def attemptWithRetries {α σ : Type} (invoke : σ → Except String α × σ)
    (model : String) (r : Nat) (s : σ) : RetryOut α σ :=
  retryGo invoke model r r none s 0

/-- Outcome of a completion call: the returned value, the ghost attempt
trace, the models whose rate limit was recorded during the call, and the
final environment state. -/
structure EngineOut (α σ : Type) where
  result : Except String α
  trace : List AttemptRec
  recorded : List String
  state : σ

/-- The fallback chain loop of SpacebotModel::completion (model.rs lines
290-328): each fallback still in cooldown is skipped (`rl0` is the
pre-call rate-limit predicate — cooldown expiry is a real-time effect
outside the embedding — and `recd` the models recorded during this call);
otherwise the fallback runs its own retry loop; when the chain is
exhausted the last error is returned, or the synthetic
"all models in fallback chain failed" when no attempt ran. -/
def fallbackGo {α σ : Type} (invoke : String → σ → Except String α × σ) (r : Nat)
    (rl0 : String → Bool) :
    List String → σ → List AttemptRec → List String → Option String → EngineOut α σ
  | [], s, tr, recd, lastErr =>
      ⟨.error (lastErr.getD "all models in fallback chain failed"), tr, recd, s⟩
  | fb :: rest, s, tr, recd, lastErr =>
      bif rl0 fb || recd.contains fb then fallbackGo invoke r rl0 rest s tr recd lastErr
      else
        match attemptWithRetries (invoke fb) fb r s with
        | .success a s' c => ⟨.ok a, tr ++ [⟨fb, c, none⟩], recd, s'⟩
        | .failure e wrl s' c =>
            fallbackGo invoke r rl0 rest s' (tr ++ [⟨fb, c, some e⟩])
              (recd ++ bif wrl then [fb] else []) (some e)

/-- SpacebotModel::completion with a routing config (model.rs lines
240-329): when the primary is in cooldown and fallbacks exist the primary
is skipped entirely; otherwise the primary runs its retry loop, records a
cooldown on a rate-limit exhaustion, returns its error when no fallbacks
exist, and otherwise hands the last error to the fallback loop. `r` and
`f` model MAX_RETRIES_PER_MODEL and MAX_FALLBACK_ATTEMPTS, whose values
live in src/llm/routing.rs; `fallbacks` models
routing.get_fallbacks(primary). -/
def completionEngine {α σ : Type} (invoke : String → σ → Except String α × σ)
    (r f : Nat) (rl0 : String → Bool) (primary : String) (fallbacks : List String)
    (s0 : σ) : EngineOut α σ :=
  bif rl0 primary && !fallbacks.isEmpty then
    fallbackGo invoke r rl0 (fallbacks.take f) s0 [] [] none
  else
    match attemptWithRetries (invoke primary) primary r s0 with
    | .success a s c => ⟨.ok a, [⟨primary, c, none⟩], [], s⟩
    | .failure e wrl s c =>
        let recd : List String := bif wrl then [primary] else []
        bif fallbacks.isEmpty then ⟨.error e, [⟨primary, c, some e⟩], recd, s⟩
        else fallbackGo invoke r rl0 (fallbacks.take f) s [⟨primary, c, some e⟩] recd (some e)

/-- An HTTP environment whose even-numbered calls answer 404 and whose
odd-numbered calls answer 500 with a retriable message. -/
def agHttpOracle : Nat → AgResult :=
  fun n => bif n % 2 == 0 then .http 404 "nf" else .http 500 "internal error"

/-- One attempt_completion for an Antigravity-backed model: the candidate
and endpoint lists are derived from the model name and configured base URL
exactly as in call_antigravity, and the HTTP step counter with the
(endpoint, model) call log is threaded as engine state. -/
def agInvoke (oracle : Nat → AgResult) (configuredBaseUrl : String) :
    String → (Nat × List (String × String)) →
    Except String Unit × (Nat × List (String × String)) :=
  fun model s =>
    let out := callAntigravity oracle (antigravityModelCandidates model)
      (antigravityEndpoints configuredBaseUrl) s.1
    (out.1.map (fun _ => ()), (out.2.1, s.2 ++ out.2.2))

-- ------------------------------------------------------------------
-- convert_messages_to_antigravity_gemini (model.rs lines 1425-1496)
-- ------------------------------------------------------------------

/-- One part of a user message (rig UserContent as used by the codecs):
text, image, or a tool result whose content is the list of its text
items. -/
inductive UserPart where
  | text (t : String)
  | image
  | toolResult (id : String) (content : List String)

/-- A chat message: user parts or assistant parts. -/
inductive Msg where
  | user (parts : List UserPart)
  | assistant (parts : List AssistantPart)

/-- tool_result_content_to_string (model.rs lines 1015-1024): join the
text items with newlines. -/
def toolResultContentToString (content : List String) : String :=
  String.intercalate "\n" content

/-- The functionResponse JSON emitted for a tool result. -/
def mkFunctionResponse (name : String) (content : List String) : Json :=
  .obj [("functionResponse", .obj [("name", .str name),
    ("response", .obj [("output", .str (toolResultContentToString content))])])]

/-- The user-role Gemini message wrapping a part list. -/
def mkUserMsgJson (parts : List Json) : Json :=
  .obj [("role", .str "user"), ("parts", .arr parts)]

/-- The model-role Gemini message wrapping a part list. -/
def mkModelMsgJson (parts : List Json) : Json :=
  .obj [("role", .str "model"), ("parts", .arr parts)]

/-- Conversion of one user part: text becomes a text part, a tool result
becomes a functionResponse named after the mapped tool call (or the
fallback "tool_result"), images are skipped by this codec. -/
def convertUserPartAG (m : List (String × String)) : UserPart → Option Json
  | .text t => some (.obj [("text", .str t)])
  | .toolResult id content =>
      some (mkFunctionResponse ((m.lookup id).getD "tool_result") content)
  | .image => none

/-- One step of the assistant-part loop: text and tool calls are emitted
(the tool call also registering id → name in the map, Rust's HashMap
insert modelled by prepending so that lookups see the latest binding);
reasoning parts are skipped. -/
def agAssistantStep (acc : List (String × String) × List Json)
    (p : AssistantPart) : List (String × String) × List Json :=
  match p with
  | .text t => (acc.1, acc.2 ++ [.obj [("text", .str t)]])
  | .toolCall id name args =>
      ((id, name) :: acc.1,
        acc.2 ++ [.obj [("functionCall", .obj [("name", .str name), ("args", args)])]])
  | .reasoning _ => acc

/-- The message loop of convert_messages_to_antigravity_gemini, threading
the tool_call_name_by_id map; messages with no convertible parts are
dropped. -/
def convertAG (m : List (String × String)) : List Msg → List Json
  | [] => []
  | .user ps :: rest =>
      let parts := ps.filterMap (convertUserPartAG m)
      (bif parts.isEmpty then [] else [mkUserMsgJson parts]) ++ convertAG m rest
  | .assistant ps :: rest =>
      let mp := ps.foldl agAssistantStep (m, [])
      (bif mp.2.isEmpty then [] else [mkModelMsgJson mp.2]) ++ convertAG mp.1 rest

/-- convert_messages_to_antigravity_gemini: the loop started with an empty
map. -/
def convertMessagesToAntigravityGemini (ms : List Msg) : List Json :=
  convertAG [] ms

/-- The (id, name) pairs of the tool calls of an assistant part list, in
emission order. -/
def toolCallPairs (ps : List AssistantPart) : List (String × String) :=
  ps.filterMap fun p =>
    match p with
    | .toolCall id name _ => some (id, name)
    | _ => none

/-- The (id, name) pairs contributed by one message. -/
def msgToolCallPairs : Msg → List (String × String)
  | .user _ => []
  | .assistant ps => toolCallPairs ps

/-- All (id, name) tool-call pairs of a message list, in order. -/
def msgPairs (ms : List Msg) : List (String × String) :=
  ms.foldr (fun msg acc => msgToolCallPairs msg ++ acc) []

/-- The tool-name map state after processing a message prefix. -/
def mapAfter (m : List (String × String)) : List Msg → List (String × String)
  | [] => m
  | .user _ :: rest => mapAfter m rest
  | .assistant ps :: rest => mapAfter (ps.foldl agAssistantStep (m, [])).1 rest

/-- The names bound to a given id in an (id, name) pair list, in order. -/
def filterNames (pairs : List (String × String)) (id : String) : List String :=
  pairs.filterMap fun pr => bif pr.1 == id then some pr.2 else none

/-- The names of the tool calls with the given id emitted by the assistant
messages of a prefix, in order. -/
def earlierCallNames (ms : List Msg) (id : String) : List String :=
  filterNames (msgPairs ms) id

-- ==================================================================
-- Theorems
-- ==================================================================

-- ------------------------------------------------------------------
-- Identifier parsing lemmas and claim C3
-- ------------------------------------------------------------------

theorem isPrefixOf_iff_exists (p : List Char) : ∀ l : List Char,
    p.isPrefixOf l = true ↔ ∃ t, l = p ++ t := by
  induction p with
  | nil => intro l; simp [List.isPrefixOf]
  | cons a as ih =>
    intro l
    cases l with
    | nil => simp [List.isPrefixOf]
    | cons b bs =>
      simp only [List.isPrefixOf, Bool.and_eq_true, beq_iff_eq, ih bs]
      constructor
      · rintro ⟨rfl, t, rfl⟩; exact ⟨t, rfl⟩
      · rintro ⟨t, ht⟩
        injection ht with h1 h2
        exact ⟨h1.symm, t, h2⟩

theorem mem_of_isPrefixOf {p l : List Char} (h : p.isPrefixOf l = true)
    {a : Char} (ha : a ∈ p) : a ∈ l := by
  obtain ⟨t, rfl⟩ := (isPrefixOf_iff_exists p l).1 h
  exact List.mem_append_left t ha

theorem splitSlash_of_mem : ∀ l : List Char, '/' ∈ l →
    ∃ p m, splitSlash l = some (p, m) ∧ l = p ++ '/' :: m ∧ '/' ∉ p := by
  intro l h
  induction l with
  | nil => cases h
  | cons c cs ih =>
    by_cases hc : c = '/'
    · subst hc
      exact ⟨[], cs, by simp [splitSlash], rfl, by simp⟩
    · have hm : '/' ∈ cs := by
        rcases List.mem_cons.mp h with h' | h'
        · exact absurd h'.symm hc
        · exact h'
      obtain ⟨p, m, h1, h2, h3⟩ := ih hm
      refine ⟨c :: p, m, ?_, by simp [h2], ?_⟩
      · simp [splitSlash, hc, h1]
      · intro hmem
        rcases List.mem_cons.mp hmem with h' | h'
        · exact hc h'.symm
        · exact h3 h'

theorem splitSlash_of_not_mem : ∀ l : List Char, '/' ∉ l → splitSlash l = none := by
  intro l h
  induction l with
  | nil => rfl
  | cons c cs ih =>
    have hc : ¬ c = '/' := fun he => h (he ▸ List.mem_cons_self c cs)
    have hm : '/' ∉ cs := fun hm => h (List.mem_cons_of_mem c hm)
    simp [splitSlash, hc, ih hm]

/-- C3. SpacebotModel::make resolves the identifier grammar: a string of
the form "openrouter/…" keeps the whole remainder (slashes included) as the
model; otherwise the string is split at its first slash into provider and
model; a slash-free string defaults the provider to "anthropic". -/
theorem make_resolves_identifier_grammar :
    (∀ r : String, makeProviderModel ("openrouter/" ++ r) = ("openrouter", r)) ∧
    (∀ s : String, openrouterPre.isPrefixOf s.data = false → '/' ∈ s.data →
      (makeProviderModel s).1.data ++ '/' :: (makeProviderModel s).2.data = s.data ∧
      '/' ∉ (makeProviderModel s).1.data) ∧
    (∀ s : String, '/' ∉ s.data → makeProviderModel s = ("anthropic", s)) := by
  refine ⟨?_, ?_, ?_⟩
  · intro r
    obtain ⟨rl⟩ := r
    have hdata : (("openrouter/" : String) ++ ⟨rl⟩).data = openrouterPre ++ rl := rfl
    have hpre : openrouterPre.isPrefixOf (openrouterPre ++ rl) = true :=
      (isPrefixOf_iff_exists _ _).2 ⟨rl, rfl⟩
    have hdrop : (openrouterPre ++ rl).drop 11 = rl := by
      have h11 : 11 = openrouterPre.length := rfl
      rw [h11, List.drop_left]
    simp only [makeProviderModel, makeCore, hdata, hpre, if_pos, hdrop]
  · intro s hpre hmem
    obtain ⟨p, m, h1, h2, h3⟩ := splitSlash_of_mem s.data hmem
    simp only [makeProviderModel, makeCore, hpre, Bool.false_eq_true, if_false, h1]
    exact ⟨h2.symm, h3⟩
  · intro s hmem
    have hpre : openrouterPre.isPrefixOf s.data = false := by
      cases h : openrouterPre.isPrefixOf s.data
      · rfl
      · exact absurd (mem_of_isPrefixOf h (by decide)) hmem
    have hsplit := splitSlash_of_not_mem s.data hmem
    simp only [makeProviderModel, makeCore, hpre, Bool.false_eq_true, if_false, hsplit]

/-- Witness for C3 at concrete identifiers. -/
theorem make_resolves_identifier_grammar_witness :
    makeProviderModel ("openrouter/" ++ "deepseek/deepseek-chat")
        = ("openrouter", "deepseek/deepseek-chat") ∧
    ((makeProviderModel "zhipu/glm-4").1.data ++ '/' :: (makeProviderModel "zhipu/glm-4").2.data
        = ("zhipu/glm-4" : String).data ∧ '/' ∉ (makeProviderModel "zhipu/glm-4").1.data) ∧
    makeProviderModel "claude-sonnet" = ("anthropic", "claude-sonnet") := by
  exact ⟨make_resolves_identifier_grammar.1 "deepseek/deepseek-chat",
    make_resolves_identifier_grammar.2.1 "zhipu/glm-4" (by decide) (by decide),
    make_resolves_identifier_grammar.2.2 "claude-sonnet" (by decide)⟩

-- ------------------------------------------------------------------
-- Claim C9: truncate_body at a multi-byte boundary
-- ------------------------------------------------------------------

set_option maxRecDepth 4000 in
/-- C9 evaluation. A body of 499 ASCII bytes followed by one 3-byte
character has 502 bytes, so it takes the truncation branch, and the byte
slice inside the multi-byte character makes the code panic (modelled as
`none`), so building the excerpt is not total. -/
theorem truncate_body_panics_on_multibyte :
    byteLen (List.replicate 499 'a' ++ ['€']) = 502 ∧
    truncateBody (List.replicate 499 'a' ++ ['€']) = none := by
  constructor <;> rfl

-- ------------------------------------------------------------------
-- Claim C4: zero-content behaviour of the parsers
-- ------------------------------------------------------------------

/-- C4 counterexample. An OpenAI body whose message has no text, reasoning
or tool-call content makes parse_openai_response return an error instead of
a single empty text part. -/
theorem openai_parser_errors_on_empty_content :
    parseOpenAiResponse (fun _ => none)
      (.obj [("choices", .arr [.obj [("message", .obj [])]]), ("usage", .obj [])])
      "OpenAI" = .error "empty response from OpenAI" := rfl

/-- C4 (amended). Only the Anthropic response parser survives zero
content, yielding a single empty text part; the OpenAI, OpenAI-Responses
and Antigravity parsers return an `empty response` error. -/
theorem zero_content_parser_behaviour :
    (∀ body blocks, (body.getF "content").asArr = some blocks →
      blocks.filterMap anthropicBlockPart = [] →
      ∃ u, parseAnthropicResponse body = .ok ⟨[.text ""], u, body⟩) ∧
    (∀ fromStr body label,
      openAiAssistantParts fromStr (((body.getF "choices").idx 0).getF "message") = [] →
      parseOpenAiResponse fromStr body label = .error ("empty response from " ++ label)) ∧
    (∀ fromStr body items, (body.getF "output").asArr = some items →
      items.foldr (fun it acc => responsesItemParts fromStr it ++ acc) [] = [] →
      parseOpenAiResponsesResponse fromStr body
        = .error "empty response from OpenAI Responses API") ∧
    (∀ events, antigravityParts events = [] →
      parseAntigravityResponse events = .error "empty response from Antigravity") := by
  refine ⟨?_, ?_, ?_, ?_⟩
  · intro body blocks h1 h2
    refine ⟨⟨(((body.getF "usage").getF "input_tokens").asNat).getD 0,
      (((body.getF "usage").getF "output_tokens").asNat).getD 0,
      (((body.getF "usage").getF "input_tokens").asNat).getD 0
        + (((body.getF "usage").getF "output_tokens").asNat).getD 0,
      (((body.getF "usage").getF "cache_read_input_tokens").asNat).getD 0⟩, ?_⟩
    simp only [parseAnthropicResponse, h1, h2, List.isEmpty_nil, if_pos]
  · intro fromStr body label h
    simp only [parseOpenAiResponse, h, List.isEmpty_nil, if_pos]
  · intro fromStr body items h1 h2
    simp only [parseOpenAiResponsesResponse, h1, h2, List.isEmpty_nil, if_pos]
  · intro events h
    simp only [parseAntigravityResponse, h, List.isEmpty_nil, if_pos]

/-- Witness for the amended C4 at concrete zero-content bodies. -/
theorem zero_content_parser_behaviour_witness :
    (∃ u, parseAnthropicResponse
        (.obj [("content", .arr []), ("stop_reason", .str "end_turn")])
        = .ok ⟨[.text ""], u, .obj [("content", .arr []), ("stop_reason", .str "end_turn")]⟩) ∧
    parseOpenAiResponse (fun _ => none) (.obj [("choices", .arr [])]) "Test"
      = .error ("empty response from " ++ "Test") ∧
    parseOpenAiResponsesResponse (fun _ => none) (.obj [("output", .arr [])])
      = .error "empty response from OpenAI Responses API" ∧
    parseAntigravityResponse [.obj []] = .error "empty response from Antigravity" :=
  ⟨zero_content_parser_behaviour.1 _ [] rfl rfl,
    zero_content_parser_behaviour.2.1 _ _ "Test" rfl,
    zero_content_parser_behaviour.2.2.1 _ _ [] rfl rfl,
    zero_content_parser_behaviour.2.2.2 [.obj []] rfl⟩

-- ------------------------------------------------------------------
-- Claim C7: usage arithmetic of the four parsers
-- ------------------------------------------------------------------

/-- C7. Every successful response built by any of the four response
parsers satisfies total_tokens = input_tokens + output_tokens. -/
theorem usage_total_is_input_plus_output :
    (∀ body r, parseAnthropicResponse body = .ok r →
      r.usage.total_tokens = r.usage.input_tokens + r.usage.output_tokens) ∧
    (∀ fromStr body label r, parseOpenAiResponse fromStr body label = .ok r →
      r.usage.total_tokens = r.usage.input_tokens + r.usage.output_tokens) ∧
    (∀ fromStr body r, parseOpenAiResponsesResponse fromStr body = .ok r →
      r.usage.total_tokens = r.usage.input_tokens + r.usage.output_tokens) ∧
    (∀ events r, parseAntigravityResponse events = .ok r →
      r.usage.total_tokens = r.usage.input_tokens + r.usage.output_tokens) := by
  refine ⟨?_, ?_, ?_, ?_⟩
  · intro body r h
    unfold parseAnthropicResponse at h
    split at h
    · exact Except.noConfusion h
    · injection h with h; subst h; rfl
  · intro fromStr body label r h
    simp only [parseOpenAiResponse] at h
    split at h
    · exact Except.noConfusion h
    · injection h with h; subst h; rfl
  · intro fromStr body r h
    simp only [parseOpenAiResponsesResponse] at h
    split at h
    · exact Except.noConfusion h
    · split at h
      · exact Except.noConfusion h
      · injection h with h; subst h; rfl
  · intro events r h
    simp only [parseAntigravityResponse] at h
    split at h
    · exact Except.noConfusion h
    · injection h with h; subst h; rfl

/-- Witness for C7 at concrete successful responses of all four parsers. -/
theorem usage_total_is_input_plus_output_witness :
    (parseAnthropicResponse anthOkBody = .ok ⟨[.text "ok"], ⟨3, 1, 4, 0⟩, anthOkBody⟩ ∧
      (⟨[.text "ok"], ⟨3, 1, 4, 0⟩, anthOkBody⟩ : CompletionResponse).usage.total_tokens
        = (⟨[.text "ok"], ⟨3, 1, 4, 0⟩, anthOkBody⟩ : CompletionResponse).usage.input_tokens
          + (⟨[.text "ok"], ⟨3, 1, 4, 0⟩, anthOkBody⟩ : CompletionResponse).usage.output_tokens) ∧
    (parseOpenAiResponse (fun _ => none) oaOkBody "OpenAI"
        = .ok ⟨[.text "hi"], ⟨2, 5, 7, 0⟩, oaOkBody⟩ ∧
      (⟨[.text "hi"], ⟨2, 5, 7, 0⟩, oaOkBody⟩ : CompletionResponse).usage.total_tokens
        = (⟨[.text "hi"], ⟨2, 5, 7, 0⟩, oaOkBody⟩ : CompletionResponse).usage.input_tokens
          + (⟨[.text "hi"], ⟨2, 5, 7, 0⟩, oaOkBody⟩ : CompletionResponse).usage.output_tokens) ∧
    (parseOpenAiResponsesResponse (fun _ => none) respOkBody
        = .ok ⟨[.text "yo"], ⟨1, 1, 2, 0⟩, respOkBody⟩ ∧
      (⟨[.text "yo"], ⟨1, 1, 2, 0⟩, respOkBody⟩ : CompletionResponse).usage.total_tokens
        = (⟨[.text "yo"], ⟨1, 1, 2, 0⟩, respOkBody⟩ : CompletionResponse).usage.input_tokens
          + (⟨[.text "yo"], ⟨1, 1, 2, 0⟩, respOkBody⟩ : CompletionResponse).usage.output_tokens) ∧
    (parseAntigravityResponse agOkEvents
        = .ok ⟨[.text "hey"], ⟨4, 2, 6, 0⟩, .obj [("events", .arr agOkEvents)]⟩ ∧
      (⟨[.text "hey"], ⟨4, 2, 6, 0⟩, .obj [("events", .arr agOkEvents)]⟩
          : CompletionResponse).usage.total_tokens
        = (⟨[.text "hey"], ⟨4, 2, 6, 0⟩, .obj [("events", .arr agOkEvents)]⟩
            : CompletionResponse).usage.input_tokens
          + (⟨[.text "hey"], ⟨4, 2, 6, 0⟩, .obj [("events", .arr agOkEvents)]⟩
              : CompletionResponse).usage.output_tokens) :=
  ⟨⟨rfl, usage_total_is_input_plus_output.1 anthOkBody _ rfl⟩,
    ⟨rfl, usage_total_is_input_plus_output.2.1 (fun _ => none) oaOkBody "OpenAI" _ rfl⟩,
    ⟨rfl, usage_total_is_input_plus_output.2.2.1 (fun _ => none) respOkBody _ rfl⟩,
    ⟨rfl, usage_total_is_input_plus_output.2.2.2 agOkEvents _ rfl⟩⟩

-- ------------------------------------------------------------------
-- Claim C8: Antigravity refresh retains missing fields
-- ------------------------------------------------------------------

/-- C8. A successful Antigravity refresh retains the stored refresh_token,
token_type and scope whenever the response lacks them, and always carries
project_id over unchanged. -/
theorem antigravity_refresh_retains_fields :
    ∀ old now json c, antigravityRefreshApply old now json = .ok c →
      ((json.getF "refresh_token").asStr = none → c.refresh_token = old.refresh_token) ∧
      ((json.getF "token_type").asStr = none → c.token_type = old.token_type) ∧
      ((json.getF "scope").asStr = none → c.scope = old.scope) ∧
      c.project_id = old.project_id := by
  intro old now json c h
  unfold antigravityRefreshApply at h
  split at h
  · exact Except.noConfusion h
  · injection h with h
    subst h
    refine ⟨fun h1 => ?_, fun h2 => ?_, fun h3 => ?_, rfl⟩
    · simp [h1, Option.orElse]
    · simp [h2, Option.orElse]
    · simp [h3, Option.orElse]

/-- Witness for C8: a refresh response carrying only an access token. -/
theorem antigravity_refresh_retains_fields_witness :
    ((⟨"new", some "r0", 3600000, some "Bearer", some "sc", "proj"⟩
        : AntigravityCredentials).refresh_token = some "r0") ∧
    ((⟨"new", some "r0", 3600000, some "Bearer", some "sc", "proj"⟩
        : AntigravityCredentials).token_type = some "Bearer") ∧
    ((⟨"new", some "r0", 3600000, some "Bearer", some "sc", "proj"⟩
        : AntigravityCredentials).scope = some "sc") ∧
    ((⟨"new", some "r0", 3600000, some "Bearer", some "sc", "proj"⟩
        : AntigravityCredentials).project_id = "proj") :=
  have h := antigravity_refresh_retains_fields
    ⟨"old", some "r0", 0, some "Bearer", some "sc", "proj"⟩ 0
    (.obj [("access_token", .str "new")]) _ rfl
  ⟨h.1 rfl, h.2.1 rfl, h.2.2.1 rfl, h.2.2.2⟩

-- ------------------------------------------------------------------
-- Claim C6: the Antigravity error-advance decision
-- ------------------------------------------------------------------

/-- C6 counterexample. A 403 whose message matches the phrase "unknown"
but does not mention "model" is returned immediately — the loop does not
advance to the next candidate model as the claim states: only m1 is ever
probed. -/
theorem antigravity_403_without_model_fails_fast :
    looksLikeMissingModelMessage "unknown" = true ∧
    callAntigravity (fun _ => .http 403 "unknown") ["m1", "m2"] ["e1"] 0
      = (.error "Antigravity API error (403) from e1 using model m1: unknown",
          1, [("e1", "m1")]) := by
  exact ⟨rfl, rfl⟩

/-- C6 (amended). A 404 advances to the next endpoint; a 400 whose message
matches a missing-model phrase advances to the next model; a 403 advances
to the next model only when its message matches a missing-model phrase and
additionally contains "model" (case-insensitive); every other non-2xx
response is returned immediately. -/
theorem antigravity_step_decision_cases :
    ∀ status msg,
      antigravityStepDecision 404 msg = .nextEndpoint ∧
      (looksLikeMissingModelMessage msg = true →
        antigravityStepDecision 400 msg = .nextModel) ∧
      (looksLikeMissingModelMessage msg = true →
        containsStr (toLowerStr msg) "model" = true →
        antigravityStepDecision 403 msg = .nextModel) ∧
      (status ≠ 404 →
        ¬(status = 400 ∧ looksLikeMissingModelMessage msg = true) →
        ¬(status = 403 ∧ looksLikeMissingModelMessage msg = true
            ∧ containsStr (toLowerStr msg) "model" = true) →
        antigravityStepDecision status msg = .fail) := by
  intro status msg
  refine ⟨rfl, ?_, ?_, ?_⟩
  · intro h
    simp [antigravityStepDecision, shouldTryNextAntigravityModel, h]
  · intro h1 h2
    simp [antigravityStepDecision, shouldTryNextAntigravityModel, h1, h2]
  · intro h1 h2 h3
    have b404 : (status == 404) = false := by simp [h1]
    by_cases h400 : status = 400
    · subst h400
      have hl : looksLikeMissingModelMessage msg = false := by
        cases hl : looksLikeMissingModelMessage msg
        · rfl
        · exact absurd ⟨rfl, hl⟩ h2
      simp [antigravityStepDecision, shouldTryNextAntigravityModel, hl]
    · by_cases h403 : status = 403
      · subst h403
        cases hl : looksLikeMissingModelMessage msg
        · simp [antigravityStepDecision, shouldTryNextAntigravityModel, hl]
        · have hm : containsStr (toLowerStr msg) "model" = false := by
            cases hm : containsStr (toLowerStr msg) "model"
            · rfl
            · exact absurd ⟨rfl, hl, hm⟩ h3
          simp [antigravityStepDecision, shouldTryNextAntigravityModel, hl, hm]
      · simp [antigravityStepDecision, shouldTryNextAntigravityModel, b404, h400, h403]

/-- Witness for the amended C6 at concrete statuses and messages. -/
theorem antigravity_step_decision_cases_witness :
    antigravityStepDecision 404 "x" = .nextEndpoint ∧
    antigravityStepDecision 400 "Requested entity was not found" = .nextModel ∧
    antigravityStepDecision 403 "unknown model" = .nextModel ∧
    antigravityStepDecision 500 "boom" = .fail :=
  ⟨(antigravity_step_decision_cases 0 "x").1,
    (antigravity_step_decision_cases 0 "Requested entity was not found").2.1 rfl,
    (antigravity_step_decision_cases 0 "unknown model").2.2.1 rfl rfl,
    (antigravity_step_decision_cases 500 "boom").2.2.2 (by decide) (by decide) (by decide)⟩

-- ------------------------------------------------------------------
-- Engine lemmas
-- ------------------------------------------------------------------

theorem retryGo_callsOf_le {α σ : Type} (invoke : σ → Except String α × σ)
    (model : String) (total : Nat) :
    ∀ remaining lastErr s calls,
      (retryGo invoke model total remaining lastErr s calls).callsOf ≤ calls + remaining := by
  intro remaining
  induction remaining with
  | zero => intro lastErr s calls; simp [retryGo, RetryOut.callsOf]
  | succ n ih =>
    intro lastErr s calls
    rcases hinv : invoke s with ⟨res, s'⟩
    cases res with
    | ok a =>
      simp only [retryGo, hinv, RetryOut.callsOf]
      omega
    | error e =>
      cases hr : isRetriableError e
      · simp only [retryGo, hinv, hr, cond_false, RetryOut.callsOf]
        omega
      · have := ih (some e) s' (calls + 1)
        simp only [retryGo, hinv, hr, cond_true]
        omega

theorem attemptWithRetries_callsOf_le {α σ : Type} (invoke : σ → Except String α × σ)
    (model : String) (r : Nat) (s : σ) :
    (attemptWithRetries invoke model r s).callsOf ≤ r := by
  have := retryGo_callsOf_le invoke model r r none s 0
  simpa [attemptWithRetries] using this

theorem fallbackGo_nil {α σ : Type} (invoke : String → σ → Except String α × σ)
    (r : Nat) (rl0 : String → Bool) (s : σ) (tr : List AttemptRec)
    (recd : List String) (lastErr : Option String) :
    fallbackGo invoke r rl0 [] s tr recd lastErr =
      ⟨.error (lastErr.getD "all models in fallback chain failed"), tr, recd, s⟩ := rfl

theorem fallbackGo_cons {α σ : Type} (invoke : String → σ → Except String α × σ)
    (r : Nat) (rl0 : String → Bool) (fb : String) (rest : List String) (s : σ)
    (tr : List AttemptRec) (recd : List String) (lastErr : Option String) :
    fallbackGo invoke r rl0 (fb :: rest) s tr recd lastErr =
      (bif rl0 fb || recd.contains fb then fallbackGo invoke r rl0 rest s tr recd lastErr
       else
         match attemptWithRetries (invoke fb) fb r s with
         | .success a s' c => ⟨.ok a, tr ++ [⟨fb, c, none⟩], recd, s'⟩
         | .failure e wrl s' c =>
             fallbackGo invoke r rl0 rest s' (tr ++ [⟨fb, c, some e⟩])
               (recd ++ bif wrl then [fb] else []) (some e)) := rfl

theorem fallbackGo_trace_shape {α σ : Type} (invoke : String → σ → Except String α × σ)
    (r : Nat) (rl0 : String → Bool) :
    ∀ l s tr recd lastErr,
      ∃ δ, (fallbackGo invoke r rl0 l s tr recd lastErr).trace = tr ++ δ := by
  intro l
  induction l with
  | nil => intro s tr recd lastErr; exact ⟨[], by rw [fallbackGo_nil]; simp⟩
  | cons fb rest ih =>
    intro s tr recd lastErr
    cases hskip : (rl0 fb || recd.contains fb)
    · rcases hatt : attemptWithRetries (invoke fb) fb r s with ⟨a, s', c⟩ | ⟨e, wrl, s', c⟩
      · refine ⟨[⟨fb, c, none⟩], ?_⟩
        rw [fallbackGo_cons, hskip, cond_false, hatt]
      · obtain ⟨δ, hδ⟩ := ih s' (tr ++ [⟨fb, c, some e⟩])
          (recd ++ bif wrl then [fb] else []) (some e)
        refine ⟨⟨fb, c, some e⟩ :: δ, ?_⟩
        rw [fallbackGo_cons, hskip, cond_false, hatt, hδ, List.append_assoc]
        rfl
    · obtain ⟨δ, hδ⟩ := ih s tr recd lastErr
      refine ⟨δ, ?_⟩
      rw [fallbackGo_cons, hskip, cond_true, hδ]

theorem fallbackGo_trace_mem {α σ : Type} (invoke : String → σ → Except String α × σ)
    (r : Nat) (rl0 : String → Bool) :
    ∀ l s tr recd lastErr e,
      e ∈ (fallbackGo invoke r rl0 l s tr recd lastErr).trace →
      e ∈ tr ∨ (rl0 e.model = false ∧ e.calls ≤ r) := by
  intro l
  induction l with
  | nil =>
    intro s tr recd lastErr e he
    rw [fallbackGo_nil] at he
    exact Or.inl he
  | cons fb rest ih =>
    intro s tr recd lastErr e he
    rw [fallbackGo_cons] at he
    cases hskip : (rl0 fb || recd.contains fb)
    · rw [hskip, cond_false] at he
      have hrl : rl0 fb = false := (Bool.or_eq_false_iff.mp hskip).1
      rcases hatt : attemptWithRetries (invoke fb) fb r s with ⟨a, s', c⟩ | ⟨e0, wrl, s', c⟩
      · rw [hatt] at he
        have hc : c ≤ r := by
          have := attemptWithRetries_callsOf_le (invoke fb) fb r s
          rw [hatt] at this; exact this
        rcases List.mem_append.mp he with h | h
        · exact Or.inl h
        · rcases List.mem_singleton.mp h with rfl
          exact Or.inr ⟨hrl, hc⟩
      · rw [hatt] at he
        have hc : c ≤ r := by
          have := attemptWithRetries_callsOf_le (invoke fb) fb r s
          rw [hatt] at this; exact this
        rcases ih s' (tr ++ [⟨fb, c, some e0⟩]) (recd ++ bif wrl then [fb] else [])
            (some e0) e he with h | h
        · rcases List.mem_append.mp h with h' | h'
          · exact Or.inl h'
          · rcases List.mem_singleton.mp h' with rfl
            exact Or.inr ⟨hrl, hc⟩
        · exact Or.inr h
    · rw [hskip, cond_true] at he
      exact ih s tr recd lastErr e he

theorem fallbackGo_trace_length {α σ : Type} (invoke : String → σ → Except String α × σ)
    (r : Nat) (rl0 : String → Bool) :
    ∀ l s tr recd lastErr,
      (fallbackGo invoke r rl0 l s tr recd lastErr).trace.length ≤ tr.length + l.length := by
  intro l
  induction l with
  | nil =>
    intro s tr recd lastErr
    rw [fallbackGo_nil]
    simp
  | cons fb rest ih =>
    intro s tr recd lastErr
    rw [fallbackGo_cons]
    cases hskip : (rl0 fb || recd.contains fb)
    · rw [cond_false]
      rcases hatt : attemptWithRetries (invoke fb) fb r s with ⟨a, s', c⟩ | ⟨e, wrl, s', c⟩
      · simp
      · have := ih s' (tr ++ [⟨fb, c, some e⟩]) (recd ++ bif wrl then [fb] else []) (some e)
        simp only [List.length_append, List.length_cons, List.length_nil] at this ⊢
        omega
    · rw [cond_true]
      have := ih s tr recd lastErr
      simp only [List.length_cons]
      omega

theorem fallbackGo_error_char {α σ : Type} (invoke : String → σ → Except String α × σ)
    (r : Nat) (rl0 : String → Bool) :
    ∀ l s tr recd lastErr,
      (∀ e0, lastErr = some e0 →
        ∃ a, tr.getLast? = some a ∧ a.outcome = some e0) →
      ∀ e, (fallbackGo invoke r rl0 l s tr recd lastErr).result = .error e →
        (∃ a, (fallbackGo invoke r rl0 l s tr recd lastErr).trace.getLast? = some a ∧
          a.outcome = some e) ∨
        (e = "all models in fallback chain failed" ∧
          (fallbackGo invoke r rl0 l s tr recd lastErr).trace = tr ∧ lastErr = none) := by
  intro l
  induction l with
  | nil =>
    intro s tr recd lastErr hP e he
    rw [fallbackGo_nil] at he ⊢
    have he' : lastErr.getD "all models in fallback chain failed" = e := by
      have h2 : (Except.error (lastErr.getD "all models in fallback chain failed")
          : Except String α) = .error e := he
      injection h2
    cases lastErr with
    | none => exact Or.inr ⟨he'.symm, rfl, rfl⟩
    | some e0 =>
      obtain ⟨a, ha1, ha2⟩ := hP e0 rfl
      exact Or.inl ⟨a, ha1, by rw [ha2]; exact congrArg some he'⟩
  | cons fb rest ih =>
    intro s tr recd lastErr hP e he
    rw [fallbackGo_cons] at he ⊢
    cases hskip : (rl0 fb || recd.contains fb)
    · rw [hskip, cond_false] at he
      rw [cond_false]
      rcases hatt : attemptWithRetries (invoke fb) fb r s with ⟨a, s', c⟩ | ⟨e0, wrl, s', c⟩
      · rw [hatt] at he
        exact Except.noConfusion he
      · rw [hatt] at he
        dsimp only at he ⊢
        have hP' : ∀ e1, (some e0 : Option String) = some e1 →
            ∃ a, (tr ++ [(⟨fb, c, some e0⟩ : AttemptRec)]).getLast? = some a ∧
              a.outcome = some e1 := by
          intro e1 h1
          injection h1 with h1
          subst h1
          exact ⟨⟨fb, c, some e0⟩, by simp, rfl⟩
        rcases ih s' (tr ++ [⟨fb, c, some e0⟩]) (recd ++ bif wrl then [fb] else [])
            (some e0) hP' e he with h | h
        · exact Or.inl h
        · exact absurd h.2.2 (by simp)
    · rw [hskip, cond_true] at he
      rw [cond_true]
      exact ih s tr recd lastErr hP e he

theorem fallbackGo_trace_nil_iff {α σ : Type} (invoke : String → σ → Except String α × σ)
    (r : Nat) (rl0 : String → Bool) :
    ∀ l s lastErr,
      ((fallbackGo invoke r rl0 l s [] [] lastErr).trace = [] ↔
        ∀ fb ∈ l, rl0 fb = true) := by
  intro l
  induction l with
  | nil => intro s lastErr; rw [fallbackGo_nil]; simp
  | cons fb rest ih =>
    intro s lastErr
    have hc : (([] : List String).contains fb) = false := rfl
    cases hrl : rl0 fb
    · rw [fallbackGo_cons, hrl, hc]
      rw [show (false || false) = false from rfl, cond_false]
      constructor
      · intro h
        exfalso
        rcases hatt : attemptWithRetries (invoke fb) fb r s with ⟨a, s', c⟩ | ⟨e, wrl, s', c⟩
        · rw [hatt] at h
          simp at h
        · rw [hatt] at h
          obtain ⟨δ, hδ⟩ := fallbackGo_trace_shape invoke r rl0 rest s'
            (([] : List AttemptRec) ++ [⟨fb, c, some e⟩])
            (([] : List String) ++ bif wrl then [fb] else []) (some e)
          rw [hδ] at h
          simp at h
      · intro h
        exact absurd (h fb (List.mem_cons_self fb rest)) (by simp [hrl])
    · rw [fallbackGo_cons, hrl, hc]
      rw [show (true || false) = true from rfl, cond_true, ih s lastErr]
      constructor
      · intro h x hx
        rcases List.mem_cons.mp hx with rfl | hx'
        · exact hrl
        · exact h x hx'
      · intro h x hx
        exact h x (List.mem_cons_of_mem fb hx)

-- ------------------------------------------------------------------
-- Antigravity fan-out bounds and the composed HTTP-call counterexample
-- ------------------------------------------------------------------

theorem agEndpointLoop_calls_le (oracle : Nat → AgResult) (model : String) :
    ∀ eps step tr lastErr,
      ((agEndpointLoop oracle model eps step tr lastErr).2.2).length
        ≤ tr.length + eps.length := by
  intro eps
  induction eps with
  | nil => intro step tr lastErr; simp [agEndpointLoop]
  | cons ep rest ih =>
    intro step tr lastErr
    rcases horacle : oracle step with ⟨status, msg⟩ | ⟨evs⟩
    · cases hdec : antigravityStepDecision status msg
      · simp only [agEndpointLoop, horacle, hdec]
        refine le_trans (ih (step + 1) (tr ++ [(ep, model)]) _) ?_
        simp only [List.length_append, List.length_cons, List.length_nil]
        omega
      · simp only [agEndpointLoop, horacle, hdec, List.length_append, List.length_cons,
          List.length_nil]
        omega
      · simp only [agEndpointLoop, horacle, hdec, List.length_append, List.length_cons,
          List.length_nil]
        omega
    · simp only [agEndpointLoop, horacle]
      split <;>
        simp only [List.length_append, List.length_cons, List.length_nil] <;> omega

theorem agModelLoop_calls_le (oracle : Nat → AgResult) (endpoints : List String) :
    ∀ cands step tr lastErr,
      ((agModelLoop oracle endpoints cands step tr lastErr).2.2).length
        ≤ tr.length + cands.length * endpoints.length := by
  intro cands
  induction cands with
  | nil => intro step tr lastErr; simp [agModelLoop]
  | cons m rest ih =>
    intro step tr lastErr
    rcases hinner : agEndpointLoop oracle m endpoints step tr lastErr with ⟨inner, step', tr'⟩
    have htr' : tr'.length ≤ tr.length + endpoints.length := by
      have := agEndpointLoop_calls_le oracle m endpoints step tr lastErr
      rw [hinner] at this
      exact this
    cases inner with
    | ret rr =>
      simp only [agModelLoop, hinner, List.length_cons, Nat.succ_mul]
      omega
    | nextModel le' =>
      have := ih step' tr' le'
      simp only [agModelLoop, hinner, List.length_cons, Nat.succ_mul]
      omega

theorem callAntigravity_calls_le (oracle : Nat → AgResult)
    (cands eps : List String) (step : Nat) :
    ((callAntigravity oracle cands eps step).2.2).length ≤ cands.length * eps.length := by
  have := agModelLoop_calls_le oracle eps cands step [] none
  simpa [callAntigravity] using this

-- ------------------------------------------------------------------
-- Claims C1, C2, C5 about the completion engine
-- ------------------------------------------------------------------

/-- C1. When the primary is in rate-limit cooldown at the check and the
fallback list is non-empty, no provider invocation is made for the primary
model: every attempt in the trace is for a model whose cooldown check was
false, hence never the primary. -/
theorem primary_skipped_when_cooling_with_fallbacks :
    ∀ {α σ : Type} (invoke : String → σ → Except String α × σ) (r f : Nat)
      (rl0 : String → Bool) (primary : String) (fallbacks : List String) (s0 : σ),
      rl0 primary = true → fallbacks ≠ [] →
      ∀ e ∈ (completionEngine invoke r f rl0 primary fallbacks s0).trace,
        e.model ≠ primary := by
  intro α σ invoke r f rl0 primary fallbacks s0 h1 h2 e he heq
  have hemp : fallbacks.isEmpty = false := by
    cases fallbacks with
    | nil => exact absurd rfl h2
    | cons a l => rfl
  have hcond : (rl0 primary && !fallbacks.isEmpty) = true := by
    rw [h1, hemp]; rfl
  have hengine : completionEngine invoke r f rl0 primary fallbacks s0
      = fallbackGo invoke r rl0 (fallbacks.take f) s0 [] [] none := by
    unfold completionEngine
    rw [hcond, cond_true]
  rw [hengine] at he
  rcases fallbackGo_trace_mem invoke r rl0 (fallbacks.take f) s0 [] [] none e he with h | h
  · exact absurd h (List.not_mem_nil e)
  · have hr := h.1
    rw [heq, h1] at hr
    exact Bool.noConfusion hr

/-- Witness for C1: with the primary cooled and one healthy fallback, the
single traced attempt is for the fallback, not the primary. -/
theorem primary_skipped_when_cooling_with_fallbacks_witness :
    (⟨"f", 1, none⟩ : AttemptRec).model ≠ "p" :=
  primary_skipped_when_cooling_with_fallbacks
    (fun _ (s : Nat) => (Except.ok (), s + 1)) 1 2 (fun m => m == "p") "p" ["f"] 0
    rfl (by decide) ⟨"f", 1, none⟩ (by decide)

/-- C2 (amended). Every attempt_with_retries run in a completion call
invokes the provider at most MAX_RETRIES_PER_MODEL times and at most
1 + MAX_FALLBACK_ATTEMPTS such runs happen (the primary plus at most
MAX_FALLBACK_ATTEMPTS fallback entries); for Antigravity a single provider
invocation may however issue up to one HTTP call per (candidate model,
endpoint) pair, so its HTTP-call count is bounded by that product, not
by the retry budget. -/
theorem retry_and_fallback_budgets :
    ∀ {α σ : Type} (invoke : String → σ → Except String α × σ) (r f : Nat)
      (rl0 : String → Bool) (primary : String) (fallbacks : List String) (s0 : σ),
      (∀ e ∈ (completionEngine invoke r f rl0 primary fallbacks s0).trace, e.calls ≤ r) ∧
      (completionEngine invoke r f rl0 primary fallbacks s0).trace.length ≤ 1 + f ∧
      (∀ oracle cands eps step,
        ((callAntigravity oracle cands eps step).2.2).length
          ≤ cands.length * eps.length) := by
  intro α σ invoke r f rl0 primary fallbacks s0
  have htake : (fallbacks.take f).length ≤ f := List.length_take_le f fallbacks
  cases hcond : (rl0 primary && !fallbacks.isEmpty)
  · have hatt0 := attemptWithRetries_callsOf_le (invoke primary) primary r s0
    rcases hatt : attemptWithRetries (invoke primary) primary r s0 with ⟨a, s, c⟩ | ⟨e0, wrl, s, c⟩
    · have hengine : completionEngine invoke r f rl0 primary fallbacks s0
          = ⟨.ok a, [⟨primary, c, none⟩], [], s⟩ := by
        unfold completionEngine
        rw [hcond, cond_false, hatt]
      rw [hatt] at hatt0
      refine ⟨?_, ?_, fun oracle cands eps step => callAntigravity_calls_le oracle cands eps step⟩
      · intro e he
        rw [hengine] at he
        rcases List.mem_singleton.mp he with rfl
        exact hatt0
      · rw [hengine]
        simp only [List.length_cons, List.length_nil]
        omega
    · rw [hatt] at hatt0
      cases hemp : fallbacks.isEmpty
      · have hengine : completionEngine invoke r f rl0 primary fallbacks s0
            = fallbackGo invoke r rl0 (fallbacks.take f) s
              [⟨primary, c, some e0⟩] (bif wrl then [primary] else []) (some e0) := by
          unfold completionEngine
          rw [hcond, cond_false, hatt, hemp]; rfl
        refine ⟨?_, ?_, fun oracle cands eps step => callAntigravity_calls_le oracle cands eps step⟩
        · intro e he
          rw [hengine] at he
          rcases fallbackGo_trace_mem invoke r rl0 (fallbacks.take f) s
              [⟨primary, c, some e0⟩] (bif wrl then [primary] else []) (some e0) e he with h | h
          · rcases List.mem_singleton.mp h with rfl
            exact hatt0
          · exact h.2
        · rw [hengine]
          have := fallbackGo_trace_length invoke r rl0 (fallbacks.take f) s
            [⟨primary, c, some e0⟩] (bif wrl then [primary] else []) (some e0)
          simp only [List.length_cons, List.length_nil] at this
          omega
      · have hengine : completionEngine invoke r f rl0 primary fallbacks s0
            = ⟨.error e0, [⟨primary, c, some e0⟩], bif wrl then [primary] else [], s⟩ := by
          unfold completionEngine
          rw [hcond, cond_false, hatt, hemp]; rfl
        refine ⟨?_, ?_, fun oracle cands eps step => callAntigravity_calls_le oracle cands eps step⟩
        · intro e he
          rw [hengine] at he
          rcases List.mem_singleton.mp he with rfl
          exact hatt0
        · rw [hengine]
          simp only [List.length_cons, List.length_nil]
          omega
  · have hengine : completionEngine invoke r f rl0 primary fallbacks s0
        = fallbackGo invoke r rl0 (fallbacks.take f) s0 [] [] none := by
      unfold completionEngine
      rw [hcond, cond_true]
    refine ⟨?_, ?_, fun oracle cands eps step => callAntigravity_calls_le oracle cands eps step⟩
    · intro e he
      rw [hengine] at he
      rcases fallbackGo_trace_mem invoke r rl0 (fallbacks.take f) s0 [] [] none e he with h | h
      · exact absurd h (List.not_mem_nil e)
      · exact h.2
    · rw [hengine]
      have := fallbackGo_trace_length invoke r rl0 (fallbacks.take f) s0 [] [] none
      simp only [List.length_nil] at this
      omega

/-- Witness for the amended C2: a one-attempt success stays within the
budgets, and a concrete fan-out instance respects the product bound. -/
theorem retry_and_fallback_budgets_witness :
    (⟨"f", 1, none⟩ : AttemptRec).calls ≤ 1 ∧
    ((callAntigravity agHttpOracle ["m"] ["e1", "e2"] 0).2.2).length ≤ 1 * 2 :=
  ⟨(retry_and_fallback_budgets (fun _ (s : Nat) => (Except.ok (), s + 1)) 1 2
      (fun m => m == "p") "p" ["f"] 0).1 ⟨"f", 1, none⟩ (by decide),
    (retry_and_fallback_budgets (fun _ (s : Nat) => (Except.ok (), s + 1)) 1 2
      (fun m => m == "p") "p" ["f"] 0).2.2 agHttpOracle ["m"] ["e1", "e2"] 0⟩

set_option maxRecDepth 20000 in
/-- C2 counterexample. With the modelled MAX_RETRIES_PER_MODEL = 3 and an
Antigravity provider whose sandbox endpoint answers 404 and whose default
endpoint answers a retriable 500, a completion call gives the single model
"gemini-3-flash" six HTTP calls — more than the retry budget, because each
of the three provider invocations fans out over both endpoints. The claim
that no model receives more than MAX_RETRIES_PER_MODEL HTTP calls fails
for every positive budget whenever at least two endpoints answer this
way. -/
theorem antigravity_http_calls_exceed_retry_budget :
    (((completionEngine (agInvoke agHttpOracle "") 3 5 (fun _ => false)
        "gemini-3-flash" [] (0, [])).state.2.filter
        (fun pr => pr.2 == "gemini-3-flash")).length = 6) ∧
    ¬ (((completionEngine (agInvoke agHttpOracle "") 3 5 (fun _ => false)
        "gemini-3-flash" [] (0, [])).state.2.filter
        (fun pr => pr.2 == "gemini-3-flash")).length ≤ 3) := by
  constructor
  · rfl
  · intro h
    rw [show (((completionEngine (agInvoke agHttpOracle "") 3 5 (fun _ => false)
        "gemini-3-flash" [] (0, [])).state.2.filter
        (fun pr => pr.2 == "gemini-3-flash")).length) = 6 from rfl] at h
    omega

/-- C5. When a completion call with a routing config fails, the returned
error is exactly the error of the last attempt in the trace, unchanged;
the synthetic "all models in fallback chain failed" appears exactly when
no attempt ran at all, which happens only with the primary cooling down
and every fallback that the chain would try also cooling down. -/
theorem last_error_returned_or_synthetic :
    ∀ {α σ : Type} (invoke : String → σ → Except String α × σ) (r f : Nat)
      (rl0 : String → Bool) (primary : String) (fallbacks : List String) (s0 : σ)
      (e : String),
      (completionEngine invoke r f rl0 primary fallbacks s0).result = .error e →
      ((completionEngine invoke r f rl0 primary fallbacks s0).trace = [] →
        e = "all models in fallback chain failed" ∧ rl0 primary = true ∧
        fallbacks ≠ [] ∧ ∀ fb ∈ fallbacks.take f, rl0 fb = true) ∧
      ((completionEngine invoke r f rl0 primary fallbacks s0).trace ≠ [] →
        ∃ a, (completionEngine invoke r f rl0 primary fallbacks s0).trace.getLast?
          = some a ∧ a.outcome = some e) := by
  intro α σ invoke r f rl0 primary fallbacks s0 e he
  cases hcond : (rl0 primary && !fallbacks.isEmpty)
  · rcases hatt : attemptWithRetries (invoke primary) primary r s0 with ⟨a, s, c⟩ | ⟨e0, wrl, s, c⟩
    · have hengine : completionEngine invoke r f rl0 primary fallbacks s0
          = ⟨.ok a, [⟨primary, c, none⟩], [], s⟩ := by
        unfold completionEngine
        rw [hcond, cond_false, hatt]
      rw [hengine] at he
      exact Except.noConfusion he
    · cases hemp : fallbacks.isEmpty
      · have hengine : completionEngine invoke r f rl0 primary fallbacks s0
            = fallbackGo invoke r rl0 (fallbacks.take f) s
              [⟨primary, c, some e0⟩] (bif wrl then [primary] else []) (some e0) := by
          unfold completionEngine
          rw [hcond, cond_false, hatt, hemp]; rfl
        rw [hengine] at he ⊢
        have hP : ∀ e1, (some e0 : Option String) = some e1 →
            ∃ a, ([⟨primary, c, some e0⟩] : List AttemptRec).getLast? = some a ∧
              a.outcome = some e1 := by
          intro e1 h1
          injection h1 with h1
          subst h1
          exact ⟨⟨primary, c, some e0⟩, rfl, rfl⟩
        rcases fallbackGo_error_char invoke r rl0 (fallbacks.take f) s
            [⟨primary, c, some e0⟩] (bif wrl then [primary] else []) (some e0) hP e he
          with h | h
        · obtain ⟨δ, hδ⟩ := fallbackGo_trace_shape invoke r rl0 (fallbacks.take f) s
            [⟨primary, c, some e0⟩] (bif wrl then [primary] else []) (some e0)
          constructor
          · intro htr
            rw [hδ] at htr
            exact absurd htr (by simp)
          · intro _; exact h
        · exact absurd h.2.2 (by simp)
      · have hengine : completionEngine invoke r f rl0 primary fallbacks s0
            = ⟨.error e0, [⟨primary, c, some e0⟩], bif wrl then [primary] else [], s⟩ := by
          unfold completionEngine
          rw [hcond, cond_false, hatt, hemp]; rfl
        rw [hengine] at he ⊢
        have he0 : e0 = e := by injection he
        constructor
        · intro htr
          exact absurd htr (by simp)
        · intro _
          exact ⟨⟨primary, c, some e0⟩, rfl, congrArg some he0⟩
  · have hengine : completionEngine invoke r f rl0 primary fallbacks s0
        = fallbackGo invoke r rl0 (fallbacks.take f) s0 [] [] none := by
      unfold completionEngine
      rw [hcond, cond_true]
    obtain ⟨h1, h2⟩ := Bool.and_eq_true_iff.mp hcond
    have hne : fallbacks ≠ [] := by
      intro hnil
      rw [hnil] at h2
      exact Bool.noConfusion h2
    rw [hengine] at he ⊢
    have hP : ∀ e1, (none : Option String) = some e1 →
        ∃ a, ([] : List AttemptRec).getLast? = some a ∧ a.outcome = some e1 := by
      intro e1 h
      exact Option.noConfusion h
    rcases fallbackGo_error_char invoke r rl0 (fallbacks.take f) s0 [] [] none hP e he
      with h | h
    · obtain ⟨a, ha1, ha2⟩ := h
      constructor
      · intro htr
        rw [htr] at ha1
        exact Option.noConfusion ha1
      · intro _
        exact ⟨a, ha1, ha2⟩
    · constructor
      · intro htr
        exact ⟨h.1, h1, hne,
          (fallbackGo_trace_nil_iff invoke r rl0 (fallbacks.take f) s0 none).mp htr⟩
      · intro htr
        exact absurd h.2.1 htr

/-- Witness for C5: with every model cooling down, no attempt runs and the
synthetic error is returned with its cooldown characterisation. -/
theorem last_error_returned_or_synthetic_witness :
    ("all models in fallback chain failed" : String)
        = "all models in fallback chain failed" ∧
    (fun _ : String => true) "p" = true ∧ (["f"] : List String) ≠ [] ∧
    ∀ fb ∈ (["f"] : List String).take 1, (fun _ : String => true) fb = true :=
  (last_error_returned_or_synthetic (fun _ (s : Nat) => ((Except.error "x" : Except String Unit), s)) 1 1
    (fun _ => true) "p" ["f"] 0 "all models in fallback chain failed" rfl).1 rfl

-- ------------------------------------------------------------------
-- C10 lemmas
-- ------------------------------------------------------------------

theorem agAssistantStep_foldl_fst : ∀ (ps : List AssistantPart)
    (m : List (String × String)) (l : List Json),
    (ps.foldl agAssistantStep (m, l)).1 = (toolCallPairs ps).reverse ++ m := by
  intro ps
  induction ps with
  | nil => intro m l; simp [toolCallPairs]
  | cons p rest ih =>
    intro m l
    cases p with
    | text t =>
      rw [List.foldl_cons]
      show (rest.foldl agAssistantStep (m, l ++ [_])).1 = _
      rw [ih m (l ++ [_])]
      simp [toolCallPairs]
    | reasoning r =>
      rw [List.foldl_cons]
      show (rest.foldl agAssistantStep (m, l)).1 = _
      rw [ih m l]
      simp [toolCallPairs]
    | toolCall id name args =>
      rw [List.foldl_cons]
      show (rest.foldl agAssistantStep ((id, name) :: m, l ++ [_])).1 = _
      rw [ih ((id, name) :: m) (l ++ [_])]
      simp [toolCallPairs, List.filterMap_cons]

theorem beq_str_comm (a b : String) : (a == b) = (b == a) := by
  by_cases h : a = b
  · subst h; rfl
  · rw [beq_eq_false_iff_ne.mpr h, beq_eq_false_iff_ne.mpr (Ne.symm h)]

theorem lookup_cons_of_beq {β : Type} (id k : String) (v : β)
    (m : List (String × β)) (h : (k == id) = true) :
    List.lookup id ((k, v) :: m) = some v := by
  have h' : (id == k) = true := by rw [beq_str_comm]; exact h
  simp [List.lookup, h']

theorem lookup_cons_of_bne {β : Type} (id k : String) (v : β)
    (m : List (String × β)) (h : (k == id) = false) :
    List.lookup id ((k, v) :: m) = List.lookup id m := by
  have h' : (id == k) = false := by rw [beq_str_comm]; exact h
  simp [List.lookup, h']

theorem lookup_reverse_append (id : String) : ∀ (pairs : List (String × String))
    (m : List (String × String)),
    List.lookup id (pairs.reverse ++ m) =
      (match (filterNames pairs id).getLast? with
        | some n => some n
        | none => List.lookup id m) := by
  intro pairs
  induction pairs with
  | nil => intro m; simp [filterNames]
  | cons kv rest ih =>
    intro m
    obtain ⟨k, v⟩ := kv
    rw [List.reverse_cons, List.append_assoc, ih ([(k, v)] ++ m)]
    cases hk : (k == id)
    · have hnames : filterNames ((k, v) :: rest) id = filterNames rest id := by
        simp [filterNames, List.filterMap_cons, hk]
      rw [hnames]
      cases hlast : (filterNames rest id).getLast?
      · simp only [hlast]
        exact lookup_cons_of_bne id k v m hk
      · simp only [hlast]
    · have hnames : filterNames ((k, v) :: rest) id = v :: filterNames rest id := by
        simp [filterNames, List.filterMap_cons, hk]
      rw [hnames]
      rw [List.getLast?_cons]
      cases hlast : (filterNames rest id).getLast?
      · simp only [hlast, Option.getD_none]
        exact lookup_cons_of_beq id k v m hk
      · simp only [hlast, Option.getD_some]

theorem mapAfter_eq : ∀ (ms : List Msg) (m : List (String × String)),
    mapAfter m ms = (msgPairs ms).reverse ++ m := by
  intro ms
  induction ms with
  | nil => intro m; simp [mapAfter, msgPairs]
  | cons x rest ih =>
    intro m
    cases x with
    | user ps =>
      rw [show mapAfter m (Msg.user ps :: rest) = mapAfter m rest from rfl, ih m]
      rw [show msgPairs (Msg.user ps :: rest) = msgPairs rest from rfl]
    | assistant ps =>
      rw [show mapAfter m (Msg.assistant ps :: rest)
          = mapAfter (ps.foldl agAssistantStep (m, [])).1 rest from rfl]
      rw [ih, agAssistantStep_foldl_fst ps m []]
      rw [show msgPairs (Msg.assistant ps :: rest)
          = toolCallPairs ps ++ msgPairs rest from rfl]
      rw [List.reverse_append, List.append_assoc]

theorem convertAG_append : ∀ (xs : List Msg) (m : List (String × String)) (ys : List Msg),
    convertAG m (xs ++ ys) = convertAG m xs ++ convertAG (mapAfter m xs) ys := by
  intro xs
  induction xs with
  | nil => intro m ys; rfl
  | cons x rest ih =>
    intro m ys
    cases x with
    | user ps =>
      have h1 : convertAG m ((Msg.user ps :: rest) ++ ys)
          = (bif (ps.filterMap (convertUserPartAG m)).isEmpty then []
              else [mkUserMsgJson (ps.filterMap (convertUserPartAG m))])
            ++ convertAG m (rest ++ ys) := rfl
      have h2 : convertAG m (Msg.user ps :: rest)
          = (bif (ps.filterMap (convertUserPartAG m)).isEmpty then []
              else [mkUserMsgJson (ps.filterMap (convertUserPartAG m))])
            ++ convertAG m rest := rfl
      rw [h1, h2, ih m ys, List.append_assoc]
      rfl
    | assistant ps =>
      have h1 : convertAG m ((Msg.assistant ps :: rest) ++ ys)
          = (bif (ps.foldl agAssistantStep (m, [])).2.isEmpty then []
              else [mkModelMsgJson (ps.foldl agAssistantStep (m, [])).2])
            ++ convertAG (ps.foldl agAssistantStep (m, [])).1 (rest ++ ys) := rfl
      have h2 : convertAG m (Msg.assistant ps :: rest)
          = (bif (ps.foldl agAssistantStep (m, [])).2.isEmpty then []
              else [mkModelMsgJson (ps.foldl agAssistantStep (m, [])).2])
            ++ convertAG (ps.foldl agAssistantStep (m, [])).1 rest := rfl
      rw [h1, h2, ih (ps.foldl agAssistantStep (m, [])).1 ys, List.append_assoc]
      rfl

/-- C10. In the Antigravity conversion of a conversation with a user
message at some position, the user message is rendered with the tool-name
map accumulated over the preceding messages; a tool-result part whose id
was bound by an earlier assistant tool call produces a functionResponse
named after that tool call (the most recent one when several share the
id), and a tool-result part with no earlier matching tool call produces a
functionResponse with the fallback name "tool_result". -/
theorem tool_result_function_response_naming :
    ∀ (pre : List Msg) (ps : List UserPart) (post : List Msg) (id : String)
      (content : List String) (j : Nat),
      ps.get? j = some (.toolResult id content) →
      (convertMessagesToAntigravityGemini (pre ++ .user ps :: post)
        = convertMessagesToAntigravityGemini pre
          ++ (bif (ps.filterMap (convertUserPartAG (mapAfter [] pre))).isEmpty then []
              else [mkUserMsgJson (ps.filterMap (convertUserPartAG (mapAfter [] pre)))])
          ++ convertAG (mapAfter [] pre) post) ∧
      (∀ n, (earlierCallNames pre id).getLast? = some n →
        convertUserPartAG (mapAfter [] pre) (.toolResult id content)
          = some (mkFunctionResponse n content)) ∧
      (earlierCallNames pre id = [] →
        convertUserPartAG (mapAfter [] pre) (.toolResult id content)
          = some (mkFunctionResponse "tool_result" content)) := by
  intro pre ps post id content j _hj
  refine ⟨?_, ?_, ?_⟩
  · have h2 : convertAG (mapAfter [] pre) (Msg.user ps :: post)
        = (bif (ps.filterMap (convertUserPartAG (mapAfter [] pre))).isEmpty then []
            else [mkUserMsgJson (ps.filterMap (convertUserPartAG (mapAfter [] pre)))])
          ++ convertAG (mapAfter [] pre) post := rfl
    rw [show convertMessagesToAntigravityGemini (pre ++ .user ps :: post)
        = convertAG [] (pre ++ .user ps :: post) from rfl]
    rw [convertAG_append pre [] (Msg.user ps :: post), h2]
    rw [show convertMessagesToAntigravityGemini pre = convertAG [] pre from rfl]
    rw [List.append_assoc]
  · intro n hn
    have hn' : (filterNames (msgPairs pre) id).getLast? = some n := hn
    have hm : List.lookup id (mapAfter [] pre) = some n := by
      rw [mapAfter_eq pre [], lookup_reverse_append id (msgPairs pre) [], hn']
    show some (mkFunctionResponse ((List.lookup id (mapAfter [] pre)).getD "tool_result")
        content) = some (mkFunctionResponse n content)
    rw [hm]
    rfl
  · intro hnil
    have hn' : (filterNames (msgPairs pre) id).getLast? = none := by
      have h0 : filterNames (msgPairs pre) id = [] := hnil
      rw [h0]
      rfl
    have hm : List.lookup id (mapAfter [] pre) = none := by
      rw [mapAfter_eq pre [], lookup_reverse_append id (msgPairs pre) [], hn']
      rfl
    show some (mkFunctionResponse ((List.lookup id (mapAfter [] pre)).getD "tool_result")
        content) = some (mkFunctionResponse "tool_result" content)
    rw [hm]
    rfl

/-- Witness for C10: a matched tool-result gets the emitting tool call's
name, an unmatched one gets the fallback name. -/
theorem tool_result_function_response_naming_witness :
    convertUserPartAG (mapAfter []
        [Msg.assistant [AssistantPart.toolCall "id1" "my_tool" (.obj [])]])
        (.toolResult "id1" ["out"])
      = some (mkFunctionResponse "my_tool" ["out"]) ∧
    convertUserPartAG (mapAfter []
        [Msg.assistant [AssistantPart.toolCall "id1" "my_tool" (.obj [])]])
        (.toolResult "id2" ["out"])
      = some (mkFunctionResponse "tool_result" ["out"]) :=
  ⟨(tool_result_function_response_naming
      [Msg.assistant [AssistantPart.toolCall "id1" "my_tool" (.obj [])]]
      [UserPart.toolResult "id1" ["out"]] [] "id1" ["out"] 0 rfl).2.1 "my_tool" rfl,
    (tool_result_function_response_naming
      [Msg.assistant [AssistantPart.toolCall "id1" "my_tool" (.obj [])]]
      [UserPart.toolResult "id2" ["out"]] [] "id2" ["out"] 0 rfl).2.2 rfl⟩

end Spacebot
